import Mathlib

/-!
Verification of the network-pharmacology aggregation-and-filtering engine.

Shallow embedding of the Python sources:
  * `src/backend/app.py` — the two `row_passes` closures of the
    `/filter-network-input` (download) and `/filter-count` endpoints;
  * `src/np/3_tcmnp_input/build_tcmnp_input.py` and
    `src/3_tcmnp_input/build_tcmnp_input.py` — the threshold-filter /
    edge-builder script (argument handling and the pandas row filter);
  * `src/np/2_target_prediction/run_target_prediction.py` — the molecule
    loader, the species filters, the three source-adapter parsers, the PPB3
    retry loop and the rank finalizer.

Numbers are modelled as `ℚ`.  A pandas/NumPy NaN (the result of
`pd.to_numeric(..., errors="coerce")` on an unparseable value, or a missing
CSV cell) is modelled as `none : Option ℚ`; every comparison against a NaN
is false in Python, which is exactly the semantics of the `nan*` comparison
helpers below.
-/

namespace NetPharm

/-! ### Python string primitives (ASCII semantics, executable in the kernel) -/

/-- Python `str.lower()` (ASCII). -/
def strLower (s : String) : String := ⟨s.data.map Char.toLower⟩

/-- Python `str.upper()` (ASCII). -/
def strUpper (s : String) : String := ⟨s.data.map Char.toUpper⟩

/-- Python `str.strip()` (whitespace at both ends). -/
def strTrim (s : String) : String :=
  ⟨((s.data.dropWhile Char.isWhitespace).reverse.dropWhile
      Char.isWhitespace).reverse⟩

/-- Python `s.endswith(suffix)`. -/
def strEndsWith (s suffix : String) : Bool :=
  List.isPrefixOf suffix.data.reverse s.data.reverse

def listContainsSub (sub : List Char) : List Char → Bool
  | [] => sub.isEmpty
  | c :: rest => List.isPrefixOf sub (c :: rest) || listContainsSub sub rest

/-- Python `sub in hay` (contiguous substring). -/
def strContains (hay sub : String) : Bool := listContainsSub sub.data hay.data


/-! ### NaN-aware comparisons (IEEE semantics: every comparison with NaN is false) -/

/-- `x >= c` where `x` may be NaN (`none`). -/
def nanGE (x : Option ℚ) (c : ℚ) : Bool :=
  match x with
  | some v => decide (c ≤ v)
  | none => false

/-- `x > c` where `x` may be NaN (`none`). -/
def nanGT (x : Option ℚ) (c : ℚ) : Bool :=
  match x with
  | some v => decide (c < v)
  | none => false

/-- `x < c` where `x` may be NaN (`none`). -/
def nanLT (x : Option ℚ) (c : ℚ) : Bool :=
  match x with
  | some v => decide (v < c)
  | none => false

/-- `x <= c` where `x` may be NaN (`none`). -/
def nanLE (x : Option ℚ) (c : ℚ) : Bool :=
  match x with
  | some v => decide (v ≤ c)
  | none => false

/-! ### Backend row model (`src/backend/app.py`, rows of
`combined_target_predictions_all3_human.csv` as read by `pd.read_csv`).

A cell value reaching `row_passes` is a number, a NaN (empty CSV cell), the
literal string `"-"`, the empty string, or `None` (column absent, the
`row.get` default path).  `float()` applied to any other string would raise
and abort the request before a row decision is made, so such values are
outside the per-row predicate's domain. -/

inductive BCell where
  | num (q : ℚ)
  | nanv
  | dash
  | blank
  | absent
deriving DecidableEq, Repr

/-- `float(row.get(col, 0)) if row.get(col) not in ['-', None, ''] else 0`
(the guard used for `Probability` and `Max_Tc`). -/
def cellVal0 (c : BCell) : Option ℚ :=
  match c with
  | .num q => some q
  | .nanv => none
  | .dash => some 0
  | .blank => some 0
  | .absent => some 0

/-- `float(row.get('P_Value', 999)) if row.get('P_Value') not in ['-', None, ''] else 999`. -/
def cellVal999 (c : BCell) : Option ℚ :=
  match c with
  | .num q => some q
  | .nanv => none
  | .dash => some 999
  | .blank => some 999
  | .absent => some 999

structure BRow where
  db : String
  prob : BCell
  maxTc : BCell
  pVal : BCell
deriving DecidableEq, Repr

/-- Query parameters of both filter endpoints (defaults
`swiss=0, ppb3=0, sea=0, sea_pval=1, mode='OR'`). -/
structure BCfg where
  swiss : ℚ
  ppb3 : ℚ
  sea : ℚ
  seaPval : ℚ
  mode : String
deriving DecidableEq, Repr

/-- `swiss_active or ppb3_active or sea_active` as computed in both
`row_passes` closures: `swiss > 0`, `ppb3 > 0`, `sea > 0 or sea_pval < 1`. -/
def anyActiveB (c : BCfg) : Bool :=
  decide (0 < c.swiss) || decide (0 < c.ppb3)
    || (decide (0 < c.sea) || decide (c.seaPval < 1))

/-- Shared body of the two `row_passes` closures (the code is duplicated
verbatim in `filter_network_input` and `get_filter_count`; only the
zero-active early return differs, see `rowPassesDownload` / `rowPassesCount`).
Each `*_pass` value is computed only when the corresponding filter is
active (`if ... else None` in the source); the `results` list collects the
non-`None` entries, then `all`/`any` with an emptiness guard decides. -/
def rowPassesCore (c : BCfg) (r : BRow) : Bool :=
  let prob := cellVal0 r.prob
  let maxTc := cellVal0 r.maxTc
  let pVal := cellVal999 r.pVal
  let swissActive := decide (0 < c.swiss)
  let ppb3Active := decide (0 < c.ppb3)
  let seaActive := decide (0 < c.sea) || decide (c.seaPval < 1)
  let swissPass := (r.db == "SwissTargetPrediction") && nanGE prob c.swiss
  let ppb3Pass := (r.db == "PPB3") && nanGE prob c.ppb3
  let seaPass := (r.db == "SEA") && nanGE maxTc c.sea && nanLE pVal c.seaPval
  let results :=
    (if swissActive then [swissPass] else []) ++
    (if ppb3Active then [ppb3Pass] else []) ++
    (if seaActive then [seaPass] else [])
  if c.mode == "AND" then !results.isEmpty && results.all id
  else !results.isEmpty && results.any id

/-- `row_passes` of `filter_network_input` (`/filter-network-input`):
"If no filters are active, include nothing". -/
def rowPassesDownload (c : BCfg) (r : BRow) : Bool :=
  if !anyActiveB c then false else rowPassesCore c r

/-- `row_passes` of `get_filter_count` (`/filter-count`): when no filters are
active it returns `True` (include all). -/
def rowPassesCount (c : BCfg) (r : BRow) : Bool :=
  if !anyActiveB c then true else rowPassesCore c r

/-- The neutral-default query configuration of both endpoints. -/
def neutralCfg : BCfg := ⟨0, 0, 0, 1, "OR"⟩

/-- C1 -- When zero thresholds are active the download-endpoint predicate
excludes every record and the count-endpoint predicate includes every
record; whenever at least one threshold is active the two predicates agree,
so they disagree exactly on the zero-active case.  The neutral defaults
`swiss=0, ppb3=0, sea=0, sea_pval=1` are a zero-active configuration. -/
theorem filter_variants_disagree_exactly_on_zero_active
    (c : BCfg) (r : BRow) :
    (anyActiveB neutralCfg = false) ∧
    (anyActiveB c = false →
      rowPassesDownload c r = false ∧ rowPassesCount c r = true) ∧
    (anyActiveB c = true → rowPassesDownload c r = rowPassesCount c r) ∧
    (rowPassesDownload c r ≠ rowPassesCount c r → anyActiveB c = false) := by
  refine ⟨by decide, ?_, ?_, ?_⟩
  · intro h
    simp [rowPassesDownload, rowPassesCount, h]
  · intro h
    simp [rowPassesDownload, rowPassesCount, h]
  · intro h
    cases hA : anyActiveB c with
    | false => rfl
    | true =>
      exact absurd (by simp [rowPassesDownload, rowPassesCount, hA]) h

/-- C1 witness. -/
theorem filter_variants_disagree_exactly_on_zero_active_witness :
    rowPassesDownload neutralCfg ⟨"SEA", .num (mkRat 1 2), .num (mkRat 1 2), .num 0⟩ = false ∧
    rowPassesCount neutralCfg ⟨"SEA", .num (mkRat 1 2), .num (mkRat 1 2), .num 0⟩ = true :=
  (filter_variants_disagree_exactly_on_zero_active neutralCfg
    ⟨"SEA", .num (mkRat 1 2), .num (mkRat 1 2), .num 0⟩).2.1 (by decide)

/-! ### C2: own-source voting semantics claimed by the spec -/

/-- Modelled from the spec's words (refinement comparison only; the code
authority is `rowPassesCore`): "evaluate only the predicate(s) belonging to
that record's source ...; a record from a source with no active threshold
contributes no vote"; under match-any include if any such vote is true,
under match-all include only if all such votes are true. -/
def rowPassesOwnSpec (c : BCfg) (r : BRow) : Bool :=
  let prob := cellVal0 r.prob
  let maxTc := cellVal0 r.maxTc
  let pVal := cellVal999 r.pVal
  let swissActive := decide (0 < c.swiss)
  let ppb3Active := decide (0 < c.ppb3)
  let seaActive := decide (0 < c.sea) || decide (c.seaPval < 1)
  let votes : List Bool :=
    if r.db == "SwissTargetPrediction" then
      (if swissActive then [nanGE prob c.swiss] else [])
    else if r.db == "PPB3" then
      (if ppb3Active then [nanGE prob c.ppb3] else [])
    else if r.db == "SEA" then
      (if seaActive then [nanGE maxTc c.sea && nanLE pVal c.seaPval] else [])
    else []
  if c.mode == "AND" then votes.all id else votes.any id

/-- C2 counterexample -- under `mode='AND'` with the Swiss and PPB3
thresholds both active, a SwissTargetPrediction record that satisfies its
own source's predicate is nevertheless excluded by the code: the active
PPB3 filter evaluates `db == 'PPB3'` on the Swiss record and contributes a
failed vote, contradicting "an active threshold for a different source
never counts as a failed vote against the record". -/
theorem own_source_vote_counterexample :
    anyActiveB ⟨mkRat 1 2, mkRat 1 2, 0, 1, "AND"⟩ = true ∧
    rowPassesOwnSpec ⟨mkRat 1 2, mkRat 1 2, 0, 1, "AND"⟩
      ⟨"SwissTargetPrediction", .num (mkRat 9 10), .blank, .blank⟩ = true ∧
    rowPassesDownload ⟨mkRat 1 2, mkRat 1 2, 0, 1, "AND"⟩
      ⟨"SwissTargetPrediction", .num (mkRat 9 10), .blank, .blank⟩ = false := by
  refine ⟨by decide, by decide, by decide⟩

/-- C2 amended -- under `match-any` (mode ≠ 'AND') with at least one active
threshold, the code's inclusion decision coincides with the own-source
semantics: other sources' active thresholds vote false but are absorbed by
`any`.  Under `match-all` every active threshold votes, so whenever the
Swiss and PPB3 thresholds are both active no record at all can pass. -/
theorem own_source_vote_amended (c : BCfg) (r : BRow) :
    (c.mode ≠ "AND" → rowPassesDownload c r = rowPassesOwnSpec c r) ∧
    (c.mode = "AND" → 0 < c.swiss → 0 < c.ppb3 →
      rowPassesDownload c r = false) := by
  constructor
  · intro hmode
    have hm : (c.mode == "AND") = false := by
      simp [hmode]
    by_cases hsw : r.db = "SwissTargetPrediction"
    · by_cases hA : 0 < c.swiss
      · simp [rowPassesDownload, rowPassesOwnSpec, rowPassesCore, anyActiveB,
          hm, hsw, hA]
      · by_cases hP : 0 < c.ppb3 <;> by_cases hS : 0 < c.sea <;>
          by_cases hV : c.seaPval < 1 <;>
          simp [rowPassesDownload, rowPassesOwnSpec, rowPassesCore, anyActiveB,
            hm, hsw, hA, hP, hS, hV]
    · by_cases hpp : r.db = "PPB3"
      · by_cases hA : 0 < c.ppb3
        · by_cases hS : 0 < c.swiss <;>
            simp [rowPassesDownload, rowPassesOwnSpec, rowPassesCore, anyActiveB,
              hm, hsw, hpp, hA, hS]
        · by_cases hS : 0 < c.swiss <;> by_cases hT : 0 < c.sea <;>
            by_cases hV : c.seaPval < 1 <;>
            simp [rowPassesDownload, rowPassesOwnSpec, rowPassesCore, anyActiveB,
              hm, hsw, hpp, hA, hS, hT, hV]
      · by_cases hsea : r.db = "SEA"
        · by_cases hT : 0 < c.sea <;> by_cases hV : c.seaPval < 1 <;>
            by_cases hS : 0 < c.swiss <;> by_cases hP : 0 < c.ppb3 <;>
            simp [rowPassesDownload, rowPassesOwnSpec, rowPassesCore, anyActiveB,
              hm, hsw, hpp, hsea, hT, hV, hS, hP]
        · by_cases hS : 0 < c.swiss <;> by_cases hP : 0 < c.ppb3 <;>
            by_cases hT : 0 < c.sea <;> by_cases hV : c.seaPval < 1 <;>
            simp [rowPassesDownload, rowPassesOwnSpec, rowPassesCore, anyActiveB,
              hm, hsw, hpp, hsea, hS, hP, hT, hV]
  · intro hmode hS hP
    have hsp : ¬ (r.db = "SwissTargetPrediction" ∧ r.db = "PPB3") := by
      rintro ⟨h1, h2⟩; rw [h1] at h2; exact absurd h2 (by decide)
    by_cases hsw : r.db = "SwissTargetPrediction"
    · simp [rowPassesDownload, rowPassesCore, anyActiveB, hmode, hS, hP, hsw]
    · simp [rowPassesDownload, rowPassesCore, anyActiveB, hmode, hS, hP, hsw]

/-- C2 witness (for the amended theorem). -/
theorem own_source_vote_amended_witness :
    rowPassesDownload ⟨mkRat 1 2, 0, 0, 1, "OR"⟩
        ⟨"SwissTargetPrediction", .num (mkRat 9 10), .blank, .blank⟩ =
      rowPassesOwnSpec ⟨mkRat 1 2, 0, 0, 1, "OR"⟩
        ⟨"SwissTargetPrediction", .num (mkRat 9 10), .blank, .blank⟩ :=
  (own_source_vote_amended ⟨mkRat 1 2, 0, 0, 1, "OR"⟩
    ⟨"SwissTargetPrediction", .num (mkRat 9 10), .blank, .blank⟩).1 (by decide)

/-! ### Threshold-filter script (`build_tcmnp_input.py`, both variants)

`main` lowercases column names, coerces `probability`, `max_tc`, `p_value`
via `pd.to_numeric(..., errors="coerce")` (unparseable → NaN, i.e. `none`),
then filters with a disjunction of per-source clauses. -/

structure ScriptRow where
  database : String
  probability : Option ℚ
  maxTc : Option ℚ
  pValue : Option ℚ
deriving DecidableEq, Repr

/-- The effective cutoffs a run of the script compares rows against. -/
structure Cutoffs where
  swiss : ℚ
  ppb3 : ℚ
  seaTc : ℚ
  seaPval : ℚ
deriving DecidableEq, Repr

/-- The pandas row filter of both script variants (`df_filtered = df[...]`):
`(database == 'SwissTargetPrediction') & (probability >= swiss)`
`| (database == 'PPB3') & (probability >= ppb3)`
`| (database == 'SEA') & (max_tc > seaTc) & (p_value < seaPval)`.
NaN values (from the coercion) compare false. -/
def scriptKeep (k : Cutoffs) (r : ScriptRow) : Bool :=
  ((r.database == "SwissTargetPrediction") && nanGE r.probability k.swiss)
    || ((r.database == "PPB3") && nanGE r.probability k.ppb3)
    || ((r.database == "SEA") && nanGT r.maxTc k.seaTc
          && nanLT r.pValue k.seaPval)

/-- Command-line arguments of the script (`parse_args`): `--swiss`
(default 0.1), `--ppb3` (default 0.5), `--sea` (default 0.3), and, in the
`src/np` variant only, `--min-prob` (default None). -/
structure TcmnpArgs where
  swiss : ℚ
  ppb3 : ℚ
  sea : ℚ
  minProb : Option ℚ
deriving DecidableEq, Repr

/-- The documented default argument values of `parse_args`. -/
def tcmnpDefaults : TcmnpArgs := ⟨mkRat 1 10, mkRat 1 2, mkRat 3 10, none⟩

/-- Effective cutoffs of the `src/np/3_tcmnp_input` variant: with
`--min-prob u` it sets `swiss = ppb3 = u`, `sea_tc = u`, `sea_pval = 1e-4`;
otherwise it keeps `args.swiss` but hardcodes `ppb3 = 0.8`,
`sea_tc = 0.4`, `sea_pval = 1e-5`.  `args.sea` is never read by the
filter in either branch. -/
def npEffective (a : TcmnpArgs) : Cutoffs :=
  match a.minProb with
  | some u => ⟨u, u, u, mkRat 1 10000⟩
  | none => ⟨a.swiss, mkRat 4 5, mkRat 2 5, mkRat 1 100000⟩

/-- Effective cutoffs of the `src/3_tcmnp_input` variant: all four are
literals in the filter expression (`0.1`, `0.8`, `0.4`, `1e-5`),
independent of every command-line argument. -/
def rootEffective (_ : TcmnpArgs) : Cutoffs :=
  ⟨mkRat 1 10, mkRat 4 5, mkRat 2 5, mkRat 1 100000⟩

/-- C3 -- the caller-supplied cutoffs are NOT what the script compares rows
against.  With the documented defaults (`--ppb3 0.5`) a PPB3 record with
probability 0.6 satisfies the documented rule (0.6 ≥ 0.5) but both script
variants drop it, because without `--min-prob` the PPB3 cutoff is hardcoded
to 0.8; and `--sea` is ignored by the np-variant filter in every branch
(the SEA MaxTc cutoff is `0.4` with a strict `>`, or `min_prob`). -/
theorem script_cutoffs_hardcoded_failing_input :
    (nanGE (some (mkRat 3 5)) tcmnpDefaults.ppb3 = true) ∧
    ((npEffective tcmnpDefaults).ppb3 = mkRat 4 5) ∧
    (scriptKeep (npEffective tcmnpDefaults)
      ⟨"PPB3", some (mkRat 3 5), none, none⟩ = false) ∧
    (scriptKeep (rootEffective tcmnpDefaults)
      ⟨"PPB3", some (mkRat 3 5), none, none⟩ = false) ∧
    (∀ a : TcmnpArgs, ∀ v : ℚ,
      npEffective ⟨a.swiss, a.ppb3, v, a.minProb⟩ = npEffective a) ∧
    (∀ a b : TcmnpArgs, rootEffective a = rootEffective b) := by
  refine ⟨by decide, by decide, by decide, by decide, ?_, ?_⟩
  · intro a v
    cases h : a.minProb <;> simp [npEffective, h]
  · intro a b
    rfl

/-! ### Monotonicity helpers -/

lemma nanGE_mono {x : Option ℚ} {a b : ℚ} (h : a ≤ b) :
    nanGE x b = true → nanGE x a = true := by
  cases x with
  | none => simp [nanGE]
  | some v =>
    simp only [nanGE, decide_eq_true_eq]
    intro hv; exact le_trans h hv

lemma nanGT_mono {x : Option ℚ} {a b : ℚ} (h : a ≤ b) :
    nanGT x b = true → nanGT x a = true := by
  cases x with
  | none => simp [nanGT]
  | some v =>
    simp only [nanGT, decide_eq_true_eq]
    intro hv; exact lt_of_le_of_lt h hv

lemma nanLE_mono {x : Option ℚ} {a b : ℚ} (h : a ≤ b) :
    nanLE x a = true → nanLE x b = true := by
  cases x with
  | none => simp [nanLE]
  | some v =>
    simp only [nanLE, decide_eq_true_eq]
    intro hv; exact le_trans hv h

lemma nanLT_mono {x : Option ℚ} {a b : ℚ} (h : a ≤ b) :
    nanLT x a = true → nanLT x b = true := by
  cases x with
  | none => simp [nanLT]
  | some v =>
    simp only [nanLT, decide_eq_true_eq]
    intro hv; exact lt_of_lt_of_le hv h

set_option maxHeartbeats 1000000 in
lemma download_mono_swiss (c : BCfg) (s' : ℚ) (h0 : 0 < c.swiss)
    (h : c.swiss ≤ s') (r : BRow) :
    rowPassesDownload {c with swiss := s'} r = true →
      rowPassesDownload c r = true := by
  have h0' : 0 < s' := lt_of_lt_of_le h0 h
  have hGE := nanGE_mono (x := cellVal0 r.prob) h
  intro hp
  cases hm : (c.mode == "AND") <;>
    cases hP : decide ((0:ℚ) < c.ppb3) <;>
    cases hS : decide ((0:ℚ) < c.sea) <;>
    cases hV : decide (c.seaPval < 1) <;>
    cases hq : nanGE (cellVal0 r.prob) s' <;>
    cases hdb1 : (r.db == "SwissTargetPrediction") <;>
    simp_all [rowPassesDownload, rowPassesCore, anyActiveB]

set_option maxHeartbeats 1000000 in
lemma download_mono_ppb3 (c : BCfg) (p' : ℚ) (h0 : 0 < c.ppb3)
    (h : c.ppb3 ≤ p') (r : BRow) :
    rowPassesDownload {c with ppb3 := p'} r = true →
      rowPassesDownload c r = true := by
  have h0' : 0 < p' := lt_of_lt_of_le h0 h
  have hGE := nanGE_mono (x := cellVal0 r.prob) h
  intro hp
  cases hm : (c.mode == "AND") <;>
    cases hP : decide ((0:ℚ) < c.swiss) <;>
    cases hS : decide ((0:ℚ) < c.sea) <;>
    cases hV : decide (c.seaPval < 1) <;>
    cases hq : nanGE (cellVal0 r.prob) p' <;>
    cases hdb1 : (r.db == "PPB3") <;>
    simp_all [rowPassesDownload, rowPassesCore, anyActiveB]

set_option maxHeartbeats 1000000 in
lemma download_mono_sea (c : BCfg) (t' : ℚ) (h0 : 0 < c.sea)
    (h : c.sea ≤ t') (r : BRow) :
    rowPassesDownload {c with sea := t'} r = true →
      rowPassesDownload c r = true := by
  have h0' : 0 < t' := lt_of_lt_of_le h0 h
  have hGE := nanGE_mono (x := cellVal0 r.maxTc) h
  intro hp
  cases hm : (c.mode == "AND") <;>
    cases hP : decide ((0:ℚ) < c.swiss) <;>
    cases hS : decide ((0:ℚ) < c.ppb3) <;>
    cases hV : decide (c.seaPval < 1) <;>
    cases hq : nanGE (cellVal0 r.maxTc) t' <;>
    cases hdb1 : (r.db == "SEA") <;>
    simp_all [rowPassesDownload, rowPassesCore, anyActiveB]

set_option maxHeartbeats 1000000 in
lemma download_mono_seapval (c : BCfg) (q' : ℚ) (h1 : c.seaPval < 1)
    (h : q' ≤ c.seaPval) (r : BRow) :
    rowPassesDownload {c with seaPval := q'} r = true →
      rowPassesDownload c r = true := by
  have h1' : q' < 1 := lt_of_le_of_lt h h1
  have hLE := nanLE_mono (x := cellVal999 r.pVal) h
  intro hp
  cases hm : (c.mode == "AND") <;>
    cases hP : decide ((0:ℚ) < c.swiss) <;>
    cases hS : decide ((0:ℚ) < c.ppb3) <;>
    cases hT : decide ((0:ℚ) < c.sea) <;>
    cases hq : nanLE (cellVal999 r.pVal) q' <;>
    cases hdb1 : (r.db == "SEA") <;>
    simp_all [rowPassesDownload, rowPassesCore, anyActiveB]

lemma scriptKeep_mono_swiss (k : Cutoffs) (s' : ℚ) (h : k.swiss ≤ s')
    (r : ScriptRow) :
    scriptKeep {k with swiss := s'} r = true → scriptKeep k r = true := by
  have hGE := nanGE_mono (x := r.probability) h
  cases hq : nanGE r.probability s' <;>
    simp_all [scriptKeep] <;> tauto

lemma scriptKeep_mono_ppb3 (k : Cutoffs) (p' : ℚ) (h : k.ppb3 ≤ p')
    (r : ScriptRow) :
    scriptKeep {k with ppb3 := p'} r = true → scriptKeep k r = true := by
  have hGE := nanGE_mono (x := r.probability) h
  cases hq : nanGE r.probability p' <;>
    simp_all [scriptKeep] <;> tauto

lemma scriptKeep_mono_seatc (k : Cutoffs) (t' : ℚ) (h : k.seaTc ≤ t')
    (r : ScriptRow) :
    scriptKeep {k with seaTc := t'} r = true → scriptKeep k r = true := by
  have hGT := nanGT_mono (x := r.maxTc) h
  cases hq : nanGT r.maxTc t' <;>
    simp_all [scriptKeep]

lemma scriptKeep_mono_seapval (k : Cutoffs) (q' : ℚ) (h : q' ≤ k.seaPval)
    (r : ScriptRow) :
    scriptKeep {k with seaPval := q'} r = true → scriptKeep k r = true := by
  have hLT := nanLT_mono (x := r.pValue) h
  cases hq : nanLT r.pValue q' <;>
    simp_all [scriptKeep]

/-- C5 -- monotonicity of the threshold filter: on any dataset, with the
combination mode and the other cutoffs fixed, raising one active threshold
(Swiss probability, PPB3 probability, SEA MaxTc), or lowering the SEA
p-value cutoff, never increases the number of retained rows.  Stated for
the backend `filter_network_input` predicate ("active" means the cutoff is
active before and after the change) and for the script's pandas filter. -/
theorem threshold_filter_monotone (rows : List BRow)
    (srows : List ScriptRow) (c : BCfg) (k : Cutoffs) :
    (∀ s', 0 < c.swiss → c.swiss ≤ s' →
      rows.countP (rowPassesDownload {c with swiss := s'}) ≤
        rows.countP (rowPassesDownload c)) ∧
    (∀ p', 0 < c.ppb3 → c.ppb3 ≤ p' →
      rows.countP (rowPassesDownload {c with ppb3 := p'}) ≤
        rows.countP (rowPassesDownload c)) ∧
    (∀ t', 0 < c.sea → c.sea ≤ t' →
      rows.countP (rowPassesDownload {c with sea := t'}) ≤
        rows.countP (rowPassesDownload c)) ∧
    (∀ q', c.seaPval < 1 → q' ≤ c.seaPval →
      rows.countP (rowPassesDownload {c with seaPval := q'}) ≤
        rows.countP (rowPassesDownload c)) ∧
    (∀ s', k.swiss ≤ s' →
      srows.countP (scriptKeep {k with swiss := s'}) ≤
        srows.countP (scriptKeep k)) ∧
    (∀ p', k.ppb3 ≤ p' →
      srows.countP (scriptKeep {k with ppb3 := p'}) ≤
        srows.countP (scriptKeep k)) ∧
    (∀ t', k.seaTc ≤ t' →
      srows.countP (scriptKeep {k with seaTc := t'}) ≤
        srows.countP (scriptKeep k)) ∧
    (∀ q', q' ≤ k.seaPval →
      srows.countP (scriptKeep {k with seaPval := q'}) ≤
        srows.countP (scriptKeep k)) := by
  refine ⟨?_, ?_, ?_, ?_, ?_, ?_, ?_, ?_⟩
  · intro s' h0 h
    exact List.countP_mono_left (fun r _ => download_mono_swiss c s' h0 h r)
  · intro p' h0 h
    exact List.countP_mono_left (fun r _ => download_mono_ppb3 c p' h0 h r)
  · intro t' h0 h
    exact List.countP_mono_left (fun r _ => download_mono_sea c t' h0 h r)
  · intro q' h1 h
    exact List.countP_mono_left (fun r _ => download_mono_seapval c q' h1 h r)
  · intro s' h
    exact List.countP_mono_left (fun r _ => scriptKeep_mono_swiss k s' h r)
  · intro p' h
    exact List.countP_mono_left (fun r _ => scriptKeep_mono_ppb3 k p' h r)
  · intro t' h
    exact List.countP_mono_left (fun r _ => scriptKeep_mono_seatc k t' h r)
  · intro q' h
    exact List.countP_mono_left (fun r _ => scriptKeep_mono_seapval k q' h r)

/-- C5 witness. -/
theorem threshold_filter_monotone_witness :
    [(⟨"SEA", .num (mkRat 1 2), .num (mkRat 1 2), .num 0⟩ : BRow)].countP
        (rowPassesDownload {neutralCfg with swiss := mkRat 3 4}) ≤
      [(⟨"SEA", .num (mkRat 1 2), .num (mkRat 1 2), .num 0⟩ : BRow)].countP
        (rowPassesDownload {neutralCfg with swiss := mkRat 1 2}) :=
  ((threshold_filter_monotone
      [⟨"SEA", .num (mkRat 1 2), .num (mkRat 1 2), .num 0⟩] []
      {neutralCfg with swiss := mkRat 1 2} ⟨0, 0, 0, 1⟩).1
    (mkRat 3 4) (by decide) (by decide))

/-! ### C10: missing / unparseable scores never satisfy an active cutoff -/

/-- A backend CSV cell that does not carry a number: NaN, `'-'`, `''`, or an
absent column. -/
def isMissingCell (x : BCell) : Bool :=
  match x with
  | .num _ => false
  | _ => true

set_option maxHeartbeats 1000000 in
lemma download_missing_swiss (c : BCfg) (r : BRow)
    (hdb : r.db = "SwissTargetPrediction") (hm : isMissingCell r.prob = true) :
    rowPassesDownload c r = false := by
  cases hpr : r.prob <;> rw [hpr] at hm <;> simp [isMissingCell] at hm <;>
    cases hmode : (c.mode == "AND") <;>
    cases hP : decide ((0:ℚ) < c.swiss) <;>
    cases hQ : decide ((0:ℚ) < c.ppb3) <;>
    cases hS : decide ((0:ℚ) < c.sea) <;>
    cases hV : decide (c.seaPval < 1) <;>
    simp_all [rowPassesDownload, rowPassesCore, anyActiveB, hdb, nanGE,
      cellVal0]

set_option maxHeartbeats 1000000 in
lemma download_missing_ppb3 (c : BCfg) (r : BRow)
    (hdb : r.db = "PPB3") (hm : isMissingCell r.prob = true) :
    rowPassesDownload c r = false := by
  cases hpr : r.prob <;> rw [hpr] at hm <;> simp [isMissingCell] at hm <;>
    cases hmode : (c.mode == "AND") <;>
    cases hP : decide ((0:ℚ) < c.swiss) <;>
    cases hQ : decide ((0:ℚ) < c.ppb3) <;>
    cases hS : decide ((0:ℚ) < c.sea) <;>
    cases hV : decide (c.seaPval < 1) <;>
    simp_all [rowPassesDownload, rowPassesCore, anyActiveB, hdb, nanGE,
      cellVal0]

set_option maxHeartbeats 1000000 in
lemma download_missing_sea_tc (c : BCfg) (r : BRow)
    (hdb : r.db = "SEA") (h0 : 0 < c.sea) (hm : isMissingCell r.maxTc = true) :
    rowPassesDownload c r = false := by
  cases hpr : r.maxTc <;> rw [hpr] at hm <;> simp [isMissingCell] at hm <;>
    cases hmode : (c.mode == "AND") <;>
    cases hP : decide ((0:ℚ) < c.swiss) <;>
    cases hQ : decide ((0:ℚ) < c.ppb3) <;>
    cases hV : decide (c.seaPval < 1) <;>
    simp_all [rowPassesDownload, rowPassesCore, anyActiveB, hdb, nanGE,
      cellVal0]

set_option maxHeartbeats 1000000 in
lemma download_missing_sea_pval (c : BCfg) (r : BRow)
    (hdb : r.db = "SEA") (h1 : c.seaPval < 1)
    (hm : isMissingCell r.pVal = true) :
    rowPassesDownload c r = false := by
  cases hpr : r.pVal <;> rw [hpr] at hm <;> simp [isMissingCell] at hm <;>
    cases hmode : (c.mode == "AND") <;>
    cases hP : decide ((0:ℚ) < c.swiss) <;>
    cases hQ : decide ((0:ℚ) < c.ppb3) <;>
    cases hS : decide ((0:ℚ) < c.sea) <;>
    simp_all [rowPassesDownload, rowPassesCore, anyActiveB, hdb, nanLE,
      cellVal999] <;>
    intro hc <;> linarith

/-- C10 -- a record whose raw value for a score is missing or unparseable
never satisfies an active cutoff on that score.  In the script, coerced-NaN
comparisons are all false, so a Swiss/PPB3 row with NaN probability, or a
SEA row with NaN MaxTc or NaN p-value, is never kept, for every cutoff
configuration.  In the backend, the substituted neutral defaults
(probability 0, Max_Tc 0, p-value 999) fail any strictly-active cutoff on
that field, so such rows are excluded by the download predicate. -/
theorem missing_scores_fail_active_cutoffs :
    (∀ q : ℚ, nanGE none q = false ∧ nanGT none q = false ∧
      nanLT none q = false ∧ nanLE none q = false) ∧
    (∀ k : Cutoffs, ∀ r : ScriptRow, r.probability = none →
      r.database = "SwissTargetPrediction" ∨ r.database = "PPB3" →
      scriptKeep k r = false) ∧
    (∀ k : Cutoffs, ∀ r : ScriptRow, r.database = "SEA" →
      r.maxTc = none ∨ r.pValue = none → scriptKeep k r = false) ∧
    (∀ c : BCfg, ∀ r : BRow, r.db = "SwissTargetPrediction" →
      isMissingCell r.prob = true → rowPassesDownload c r = false) ∧
    (∀ c : BCfg, ∀ r : BRow, r.db = "PPB3" →
      isMissingCell r.prob = true → rowPassesDownload c r = false) ∧
    (∀ c : BCfg, ∀ r : BRow, r.db = "SEA" → 0 < c.sea →
      isMissingCell r.maxTc = true → rowPassesDownload c r = false) ∧
    (∀ c : BCfg, ∀ r : BRow, r.db = "SEA" → c.seaPval < 1 →
      isMissingCell r.pVal = true → rowPassesDownload c r = false) := by
  refine ⟨?_, ?_, ?_, ?_, ?_, ?_, ?_⟩
  · intro q
    exact ⟨rfl, rfl, rfl, rfl⟩
  · intro k r hp hdb
    rcases hdb with h | h <;> simp [scriptKeep, h, hp, nanGE]
  · intro k r hdb hm
    rcases hm with h | h <;> simp [scriptKeep, hdb, h, nanGT, nanLT]
  · intro c r hdb hm
    exact download_missing_swiss c r hdb hm
  · intro c r hdb hm
    exact download_missing_ppb3 c r hdb hm
  · intro c r hdb h0 hm
    exact download_missing_sea_tc c r hdb h0 hm
  · intro c r hdb h1 hm
    exact download_missing_sea_pval c r hdb h1 hm

/-- C10 witness. -/
theorem missing_scores_fail_active_cutoffs_witness :
    scriptKeep ⟨mkRat 1 10, mkRat 4 5, mkRat 2 5, mkRat 1 100000⟩
      ⟨"SwissTargetPrediction", none, none, none⟩ = false ∧
    rowPassesDownload ⟨mkRat 1 2, 0, 0, 1, "OR"⟩
      ⟨"SwissTargetPrediction", .nanv, .blank, .blank⟩ = false :=
  ⟨missing_scores_fail_active_cutoffs.2.1
      ⟨mkRat 1 10, mkRat 4 5, mkRat 2 5, mkRat 1 100000⟩
      ⟨"SwissTargetPrediction", none, none, none⟩ rfl (Or.inl rfl),
    missing_scores_fail_active_cutoffs.2.2.2.1
      ⟨mkRat 1 2, 0, 0, 1, "OR"⟩
      ⟨"SwissTargetPrediction", .nanv, .blank, .blank⟩ rfl rfl⟩

/-! ### Aggregator rank finalizer (`finalize_rank` / `save_outputs`)

`finalize_rank` sets `df["Rank"] = df.groupby(["Phytochemical", "SMILES",
"Database"]).cumcount() + 1`, overwriting whatever rank a source adapter
wrote into the row. -/

/-- A merged prediction row, reduced to the fields `finalize_rank` reads
(the group key) plus the adapter-assigned rank it overwrites (kept as the
raw string the adapters produce: a number for Swiss/SEA, `""` for PPB3). -/
structure AggRow where
  phytochemical : String
  smiles : String
  database : String
  adapterRank : String
deriving DecidableEq, Repr

/-- The `groupby` key of `finalize_rank`. -/
def aggKey (r : AggRow) : String × String × String :=
  (r.phytochemical, r.smiles, r.database)

/-- `groupby(...).cumcount() + 1`: each row's new rank is one plus the
number of earlier rows with the same key.  `cnt` carries the number of
rows of each key already seen. -/
def rankAux : List AggRow → ((String × String × String) → Nat) →
    List (AggRow × Nat)
  | [], _ => []
  | r :: rs, cnt =>
    (r, cnt (aggKey r) + 1) ::
      rankAux rs (fun k => if k = aggKey r then cnt k + 1 else cnt k)

/-- `finalize_rank` over the merged row list. -/
def finalizeRank (l : List AggRow) : List (AggRow × Nat) :=
  rankAux l (fun _ => 0)

/-- The ranks assigned to one `(molecule, source)` group, in row order. -/
def groupRanks (l : List AggRow) (k : String × String × String) : List Nat :=
  ((finalizeRank l).filter (fun p => decide (aggKey p.1 = k))).map (·.2)

lemma rankAux_group (k : String × String × String) :
    ∀ (l : List AggRow) (cnt : (String × String × String) → Nat),
      ((rankAux l cnt).filter (fun p => decide (aggKey p.1 = k))).map (·.2) =
        List.range' (cnt k + 1)
          (l.countP (fun r => decide (aggKey r = k))) := by
  intro l
  induction l with
  | nil => intro cnt; simp [rankAux]
  | cons r rs ih =>
    intro cnt
    by_cases hk : aggKey r = k
    · subst hk
      have hcount : (r :: rs).countP (fun x => decide (aggKey x = aggKey r)) =
          rs.countP (fun x => decide (aggKey x = aggKey r)) + 1 := by
        simp [List.countP_cons]
      rw [hcount, List.range'_succ]
      simp [rankAux, ih]
    · have hk2 : ¬ k = aggKey r := fun h => hk h.symm
      simp [rankAux, List.countP_cons, hk, hk2, ih]

lemma rankAux_keys : ∀ (l : List AggRow)
    (cnt₁ cnt₂ : (String × String × String) → Nat)
    (l₂ : List AggRow), l.map aggKey = l₂.map aggKey →
    (∀ k, cnt₁ k = cnt₂ k) →
    (rankAux l cnt₁).map (·.2) = (rankAux l₂ cnt₂).map (·.2) := by
  intro l
  induction l with
  | nil =>
    intro cnt₁ cnt₂ l₂ hmap _
    cases l₂ with
    | nil => rfl
    | cons b bs => simp at hmap
  | cons r rs ih =>
    intro cnt₁ cnt₂ l₂ hmap hcnt
    cases l₂ with
    | nil => simp at hmap
    | cons b bs =>
      simp only [List.map_cons, List.cons.injEq] at hmap
      obtain ⟨hkey, htail⟩ := hmap
      simp only [rankAux, List.map_cons, List.cons.injEq]
      constructor
      · rw [hcnt (aggKey r), hkey]
      · exact ih _ _ bs htail (fun k => by
          rw [hkey]
          by_cases h : k = aggKey b <;> simp [h, hcnt])

/-- C6 -- after the full merge, the Rank values of every
`(molecule, source)` group (key `(Phytochemical, SMILES, Database)`) form
exactly the dense sequence `1..k` where `k` is the group size; the rows
themselves are preserved in order, and the assigned ranks depend only on
the group keys — any adapter-assigned rank is overwritten and ignored. -/
theorem finalize_rank_dense (l l₂ : List AggRow)
    (k : String × String × String) :
    (groupRanks l k =
      List.range' 1 (l.countP (fun r => decide (aggKey r = k)))) ∧
    ((finalizeRank l).map (·.1) = l) ∧
    (l.map aggKey = l₂.map aggKey →
      (finalizeRank l).map (·.2) = (finalizeRank l₂).map (·.2)) := by
  refine ⟨rankAux_group k l (fun _ => 0), ?_, ?_⟩
  · show (rankAux l (fun _ => 0)).map (·.1) = l
    generalize (fun _ => 0 : (String × String × String) → Nat) = cnt
    induction l generalizing cnt with
    | nil => rfl
    | cons r rs ih => simp [rankAux, ih]
  · intro h
    exact rankAux_keys l _ _ l₂ h (fun _ => rfl)

/-- C6 witness (for the key-dependence conjunct). -/
theorem finalize_rank_dense_witness :
    (finalizeRank [⟨"mol", "CCO", "SEA", "7"⟩]).map (·.2) =
      (finalizeRank [⟨"mol", "CCO", "SEA", ""⟩]).map (·.2) :=
  (finalize_rank_dense [⟨"mol", "CCO", "SEA", "7"⟩]
    [⟨"mol", "CCO", "SEA", ""⟩] ("mol", "CCO", "SEA")).2.2 (by decide)

/-! ### Molecule loader (`read_phytochemical_csv`)

A CSV is modelled as its raw header list plus one lookup function per row:
`row c` is `str(row[c])` for a (normalized) column name `c` — pandas turns
a missing value into NaN, whose `str()` is the literal `"nan"`, which is
why the loader tests for that marker. -/

inductive PhytoErr where
  | missingColumn
  | noValidRows
deriving DecidableEq, Repr

structure PhytoRec where
  phytochemical : String
  plant : String
  plantPart : String
  smiles : String
  cid : String
  imppatId : String
  knapsackId : String
deriving DecidableEq, Repr

def findCol (cols : List String) (cands : List String) : Option String :=
  cands.find? (fun c => cols.contains c)

def getOpt (row : String → String) : Option String → String
  | some c => strTrim (row c)
  | none => ""

def mkPhytoRec (row : String → String) (smi : String)
    (cPhyto cPlant cPart cPub cImp cKnap : Option String) : PhytoRec :=
  ⟨getOpt row cPhyto, getOpt row cPlant, getOpt row cPart, smi,
    getOpt row cPub, getOpt row cImp, getOpt row cKnap⟩

def pyTruthyInt (x : Option Int) : Bool :=
  match x with
  | none => false
  | some m => m != 0

def collectRecs (smilesCol : String)
    (cPhyto cPlant cPart cPub cImp cKnap : Option String)
    (maxC : Option Int) : List (String → String) → Nat → List PhytoRec
  | [], _ => []
  | row :: rest, n =>
    let smi := strTrim (row smilesCol)
    if smi = "" ∨ strLower smi = "nan" then
      collectRecs smilesCol cPhyto cPlant cPart cPub cImp cKnap maxC rest n
    else
      let rec1 := mkPhytoRec row smi cPhyto cPlant cPart cPub cImp cKnap
      if pyTruthyInt maxC && decide (maxC.getD 0 ≤ ((n : Int) + 1)) then
        [rec1]
      else
        rec1 :: collectRecs smilesCol cPhyto cPlant cPart cPub cImp cKnap
          maxC rest (n + 1)

def normCols (rawCols : List String) : List String :=
  rawCols.map (fun c => strLower (strTrim c))

def readPhytoCsv (rawCols : List String) (rows : List (String → String))
    (maxC : Option Int) : Except PhytoErr (List PhytoRec) :=
  match findCol (normCols rawCols) ["smiles"] with
  | none => .error .missingColumn
  | some smilesCol =>
    let recs := collectRecs smilesCol
      (findCol (normCols rawCols)
        ["phytochemical name", "phytochemical", "compound", "molecule"])
      (findCol (normCols rawCols) ["plant source", "plant", "herb"])
      (findCol (normCols rawCols) ["plant part", "part"])
      (findCol (normCols rawCols) ["pubchem id", "cid"])
      (findCol (normCols rawCols) ["imppat id"])
      (findCol (normCols rawCols) ["knapsack id"])
      maxC rows 0
    if recs.isEmpty then .error .noValidRows else .ok recs

def validSmiles (smilesCol : String) (row : String → String) : Bool :=
  !((strTrim (row smilesCol) = "") ∨ (strLower (strTrim (row smilesCol)) = "nan") : Bool)

/-- The full cleaned record list (no row limit). -/
def cleanedRecs (rawCols : List String)
    (rows : List (String → String)) : List PhytoRec :=
  (rows.filter (validSmiles "smiles")).map
    (fun row => mkPhytoRec row (strTrim (row "smiles"))
      (findCol (normCols rawCols)
        ["phytochemical name", "phytochemical", "compound", "molecule"])
      (findCol (normCols rawCols) ["plant source", "plant", "herb"])
      (findCol (normCols rawCols) ["plant part", "part"])
      (findCol (normCols rawCols) ["pubchem id", "cid"])
      (findCol (normCols rawCols) ["imppat id"])
      (findCol (normCols rawCols) ["knapsack id"]))

lemma findCol_smiles_mem {cols : List String} (h : "smiles" ∈ cols) :
    findCol cols ["smiles"] = some "smiles" := by
  simp [findCol, List.find?_cons, h]

lemma findCol_smiles_none {cols : List String} (h : "smiles" ∉ cols) :
    findCol cols ["smiles"] = none := by
  rcases hf : findCol cols ["smiles"] with _ | sc
  · rfl
  · exfalso
    have hmem := List.mem_of_find?_eq_some hf
    have hpred := List.find?_some hf
    simp at hmem
    subst hmem
    simp at hpred
    exact h hpred

lemma collect_noLimit (smilesCol : String)
    (c1 c2 c3 c4 c5 c6 : Option String) :
    ∀ (rows : List (String → String)) (n : Nat),
      collectRecs smilesCol c1 c2 c3 c4 c5 c6 none rows n =
        (rows.filter (validSmiles smilesCol)).map
          (fun row => mkPhytoRec row (strTrim (row smilesCol)) c1 c2 c3 c4 c5 c6) := by
  intro rows
  induction rows with
  | nil => intro n; rfl
  | cons row rest ih =>
    intro n
    by_cases h : (strTrim (row smilesCol) = "") ∨ (strLower (strTrim (row smilesCol)) = "nan")
    · simp [collectRecs, h, validSmiles, ih]
    · simp [collectRecs, h, validSmiles, pyTruthyInt, ih]

lemma collect_limit (smilesCol : String)
    (c1 c2 c3 c4 c5 c6 : Option String) (m : Int) (h1 : 1 ≤ m) :
    ∀ (rows : List (String → String)) (n : Nat), (n : Int) < m →
      collectRecs smilesCol c1 c2 c3 c4 c5 c6 (some m) rows n =
        ((rows.filter (validSmiles smilesCol)).map
          (fun row => mkPhytoRec row (strTrim (row smilesCol))
            c1 c2 c3 c4 c5 c6)).take (m.toNat - n) := by
  intro rows
  induction rows with
  | nil => intro n _; simp [collectRecs]
  | cons row rest ih =>
    intro n hn
    by_cases h : (strTrim (row smilesCol) = "") ∨ (strLower (strTrim (row smilesCol)) = "nan")
    · simp [collectRecs, h, validSmiles, ih n hn]
    · by_cases hb : m ≤ (n : Int) + 1
      · have hm1 : m.toNat - n = 1 := by omega
        simp [collectRecs, h, validSmiles, pyTruthyInt, hb, hm1,
          show m ≠ 0 by omega]
      · have hn' : ((n + 1 : Nat) : Int) < m := by push_cast; omega
        have hm2 : m.toNat - n = (m.toNat - (n + 1)) + 1 := by omega
        simp [collectRecs, h, validSmiles, pyTruthyInt, hb, ih (n + 1) hn',
          hm2, show m ≠ 0 by omega]

lemma collect_valid (smilesCol : String)
    (c1 c2 c3 c4 c5 c6 : Option String) (maxC : Option Int) :
    ∀ (rows : List (String → String)) (n : Nat), ∀ rec ∈ collectRecs
      smilesCol c1 c2 c3 c4 c5 c6 maxC rows n,
      ¬(rec.smiles = "") ∧ ¬(strLower rec.smiles = "nan") := by
  intro rows
  induction rows with
  | nil => intro n rec h; simp [collectRecs] at h
  | cons row rest ih =>
    intro n rec hmem
    by_cases h : (strTrim (row smilesCol) = "") ∨ (strLower (strTrim (row smilesCol)) = "nan")
    · rw [collectRecs, if_pos h] at hmem
      exact ih n rec hmem
    · push_neg at h
      rw [collectRecs, if_neg (by push_neg; exact h)] at hmem
      by_cases hb : (pyTruthyInt maxC && decide (maxC.getD 0 ≤ ((n : Int) + 1))) = true
      · rw [if_pos hb, List.mem_singleton] at hmem
        subst hmem
        exact h
      · rw [if_neg hb, List.mem_cons] at hmem
        rcases hmem with hmem | hmem
        · subst hmem
          exact h
        · exact ih (n + 1) rec hmem

lemma collect_nil_of_filter_nil (smilesCol : String)
    (c1 c2 c3 c4 c5 c6 : Option String) (maxC : Option Int) :
    ∀ (rows : List (String → String)) (n : Nat),
      rows.filter (validSmiles smilesCol) = [] →
      collectRecs smilesCol c1 c2 c3 c4 c5 c6 maxC rows n = [] := by
  intro rows
  induction rows with
  | nil => intro n _; rfl
  | cons row rest ih =>
    intro n hf
    rw [List.filter_cons] at hf
    by_cases h : (strTrim (row smilesCol) = "") ∨ (strLower (strTrim (row smilesCol)) = "nan")
    · rw [collectRecs, if_pos h]
      apply ih
      rcases hv : validSmiles smilesCol row with _ | _
      · rw [hv] at hf
        simpa using hf
      · exfalso
        rw [hv] at hf
        simp at hf
    · exfalso
      have hv : validSmiles smilesCol row = true := by
        simp [validSmiles]
        push_neg at h
        exact h
      rw [hv] at hf
      simp at hf

/-- C7 -- the molecule loader fails with the missing-column error when no
normalized header equals the SMILES synonym, fails with the no-valid-rows
error when zero rows survive cleaning, silently drops exactly the rows
whose stripped SMILES cell is empty or the literal `"nan"` marker, and with
a positive caller-supplied maximum `m` returns exactly the first `m`
cleaned rows (all of them when no maximum is given). -/
theorem read_phytochemical_csv_behavior (rawCols : List String)
    (rows : List (String → String)) (maxC : Option Int) :
    ("smiles" ∉ normCols rawCols →
      readPhytoCsv rawCols rows maxC = .error .missingColumn) ∧
    (∀ recs, readPhytoCsv rawCols rows maxC = .ok recs →
      ∀ rec ∈ recs, ¬(rec.smiles = "") ∧ ¬(strLower rec.smiles = "nan")) ∧
    (rows.filter (validSmiles "smiles") = [] →
      "smiles" ∈ normCols rawCols →
      readPhytoCsv rawCols rows maxC = .error .noValidRows) ∧
    (∀ m : Int, maxC = some m → 1 ≤ m → ∀ recs,
      readPhytoCsv rawCols rows maxC = .ok recs →
      recs = (cleanedRecs rawCols rows).take m.toNat) ∧
    (maxC = none → ∀ recs, readPhytoCsv rawCols rows maxC = .ok recs →
      recs = cleanedRecs rawCols rows) := by
  refine ⟨?_, ?_, ?_, ?_, ?_⟩
  · intro hnone
    rw [readPhytoCsv, findCol_smiles_none hnone]
  · intro recs hok rec hmem
    rw [readPhytoCsv] at hok
    rcases hc : findCol (normCols rawCols) ["smiles"] with _ | sc
    · rw [hc] at hok
      exact absurd hok (by simp)
    · rw [hc] at hok
      simp only at hok
      split at hok
      · exact absurd hok (by simp)
      · cases hok
        exact collect_valid sc _ _ _ _ _ _ maxC rows 0 rec hmem
  · intro hfilter hmem
    have hsc : findCol (normCols rawCols) ["smiles"] = some "smiles" :=
      findCol_smiles_mem hmem
    rw [readPhytoCsv, hsc]
    simp only
    rw [collect_nil_of_filter_nil _ _ _ _ _ _ _ maxC rows 0 hfilter]
    rfl
  · intro m hm h1 recs hok
    subst hm
    rw [readPhytoCsv] at hok
    rcases hc : findCol (normCols rawCols) ["smiles"] with _ | sc
    · rw [hc] at hok
      exact absurd hok (by simp)
    · have hsc : sc = "smiles" := by
        have hmem := List.mem_of_find?_eq_some hc
        simpa using hmem
      subst hsc
      rw [hc] at hok
      simp only at hok
      rw [collect_limit _ _ _ _ _ _ _ m h1 rows 0 (by omega)] at hok
      split at hok
      · exact absurd hok (by simp)
      · cases hok
        simp [cleanedRecs]
  · intro hm recs hok
    subst hm
    rw [readPhytoCsv] at hok
    rcases hc : findCol (normCols rawCols) ["smiles"] with _ | sc
    · rw [hc] at hok
      exact absurd hok (by simp)
    · have hsc : sc = "smiles" := by
        have hmem := List.mem_of_find?_eq_some hc
        simpa using hmem
      subst hsc
      rw [hc] at hok
      simp only at hok
      rw [collect_noLimit] at hok
      split at hok
      · exact absurd hok (by simp)
      · cases hok
        rfl


/-- C7 witness. -/
theorem read_phytochemical_csv_behavior_witness :
    ([(⟨"", "", "", "CCO", "", "", ""⟩ : PhytoRec)] : List PhytoRec) =
      cleanedRecs ["SMILES"]
        [fun _ => "nan", fun _ => "CCO"] :=
  (read_phytochemical_csv_behavior ["SMILES"]
    [fun _ => "nan", fun _ => "CCO"] none).2.2.2.2 rfl
    [⟨"", "", "", "CCO", "", "", ""⟩] (by rfl)


/-! ### Species filters -/

/-- `is_human_target_uniprot`: empty/non-string falsy guard, then
`target_key.upper().endswith("_HUMAN")`. -/
def isHumanTargetUniprot (targetKey : String) : Bool :=
  if targetKey = "" then false
  else strEndsWith (strUpper targetKey) "_HUMAN"

/-- `is_homo_sapiens`: falsy guard, then `t = text.strip().lower()`,
`t == "homo sapiens" or t == "h. sapiens" or "homo sapiens" in t`. -/
def isHomoSapiens (text : String) : Bool :=
  if text = "" then false
  else
    let t := strLower (strTrim text)
    t == "homo sapiens" || t == "h. sapiens" || strContains t "homo sapiens"

/-! ### Python float() for plain decimal / scientific literals -/

def digitsVal (l : List Char) : Nat :=
  l.foldl (fun a c => a * 10 + (c.toNat - 48)) 0

/-- The rational value `sgn * mantissa * 10 ^ e` (all-integer arithmetic,
one final normalization). -/
def ratOfSci (sgn : Int) (mantissa : Nat) (e : Int) : ℚ :=
  if 0 ≤ e then mkRat (sgn * mantissa * (10 ^ e.toNat : Nat)) 1
  else mkRat (sgn * mantissa) (10 ^ (-e).toNat)

/-- `float(s)` restricted to the finite decimal / scientific literals the
services emit; other strings (and anything `float()` rejects) give `none`,
the embedding of the raised `ValueError`. -/
def pyFloat? (s : String) : Option ℚ :=
  let cs := (strTrim s).data
  let sgnSplit : Int × List Char :=
    match cs with
    | '-' :: r => (-1, r)
    | '+' :: r => (1, r)
    | _ => (1, cs)
  let sgn := sgnSplit.1
  let cs1 := sgnSplit.2
  let ip := cs1.takeWhile Char.isDigit
  let r1 := cs1.drop ip.length
  let manSplit : Option (Nat × Nat) × List Char :=
    match r1 with
    | '.' :: rf =>
      let fp := rf.takeWhile Char.isDigit
      if ip.isEmpty && fp.isEmpty then (none, rf)
      else (some (digitsVal (ip ++ fp), fp.length), rf.drop fp.length)
    | _ => if ip.isEmpty then (none, r1) else (some (digitsVal ip, 0), r1)
  match manSplit.1 with
  | none => none
  | some mv =>
    match manSplit.2 with
    | [] => some (ratOfSci sgn mv.1 (-(mv.2 : Int)))
    | 'e' :: re =>
      let esgnSplit : Int × List Char :=
        match re with
        | '-' :: rr => (-1, rr)
        | '+' :: rr => (1, rr)
        | _ => (1, re)
      let ed := esgnSplit.2.takeWhile Char.isDigit
      if ed.isEmpty || !(esgnSplit.2.drop ed.length).isEmpty then none
      else some (ratOfSci sgn mv.1 (esgnSplit.1 * (digitsVal ed : Int) - (mv.2 : Int)))
    | 'E' :: re =>
      let esgnSplit : Int × List Char :=
        match re with
        | '-' :: rr => (-1, rr)
        | '+' :: rr => (1, rr)
        | _ => (1, re)
      let ed := esgnSplit.2.takeWhile Char.isDigit
      if ed.isEmpty || !(esgnSplit.2.drop ed.length).isEmpty then none
      else some (ratOfSci sgn mv.1 (esgnSplit.1 * (digitsVal ed : Int) - (mv.2 : Int)))
    | _ => none

example : pyFloat? "0.87" = some (mkRat 87 100) := by decide
example : pyFloat? " 1e-2 " = some (mkRat 1 100) := by decide
example : pyFloat? "abc" = none := by decide
example : pyFloat? "" = none := by decide
example : pyFloat? "-3.5" = some (mkRat (-7) 2) := by decide
example : pyFloat? "2.5e3" = some 2500 := by decide

/-! ### PPB3 adapter (`ppb3_extract_targets_from_page`,
`ppb3_submit_smiles_for_method`) -/

structure PTarget where
  targetName : String
  probability : ℚ
  organism : String
deriving DecidableEq, Repr

/-- One `<tr>` of the PPB3 `resultsTable`, as the list of its `<td>` texts
(already `get_text(strip=True)`-stripped by the embedding at use sites). -/
def ppb3Row? (cells : List String) : Option PTarget :=
  if cells.length < 6 then none
  else
    let targetName := strTrim (cells.getD 2 "")
    let probStr := strTrim (cells.getD 3 "")
    let organism := strTrim (cells.getD 5 "")
    if !isHomoSapiens organism then none
    else
      match pyFloat? probStr with
      | none => none
      | some p =>
        if targetName ≠ "" then some ⟨targetName, p, organism⟩ else none

/-- A fetched PPB3 page: `none` when `soup.find("table", id="resultsTable")`
finds nothing, otherwise the `tbody tr` rows. -/
def ppb3Extract (hasBs4 : Bool) (page : Option (List (List String))) :
    List PTarget :=
  if !hasBs4 then []
  else
    match page with
    | none => []
    | some rows => rows.filterMap ppb3Row?

def PPB3_MAX_RETRIES : Nat := 3

/-- `model_type_map.get(method)`. -/
def modelTypeMap (method : String) : Option String :=
  if method = "DNN(ECFP4+MHFP6)" then some "Fused"
  else if method = "DNN(ECFP4)" then some "ECFP4"
  else if method = "DNN(RDKit)" then some "RDKit"
  else if method = "DNN(Layered)" then some "Layered"
  else if method = "DNN(MHFP6)" then some "MHFP6"
  else if method = "DNN(ECFP6)" then some "ECFP6"
  else if method = "DNN(AtomPair)" then some "AtomPair"
  else if method = "Consensus" then some "Consensus"
  else none

/-- `ppb3_submit_smiles_for_method`, with the network modelled as an oracle
`env`: `env i = none` means attempt `i` raised (timeout / HTTP error /
`raise_for_status`), `env i = some page` means it returned a response whose
parsed `resultsTable` is `page`.  Returns the extracted targets together
with the list of back-off sleeps (`time.sleep(2 * (retry + 1))`) performed. -/
def ppb3SubmitAux (env : Nat → Option (Option (List (List String))))
    (method : String) (retry : Nat) : List PTarget × List Nat :=
  if PPB3_MAX_RETRIES ≤ retry then ([], [])
  else
    match modelTypeMap method with
    | none => ([], [])
    | some _ =>
      match env retry with
      | some page => (ppb3Extract true page, [])
      | none =>
        let rest := ppb3SubmitAux env method (retry + 1)
        (rest.1, 2 * (retry + 1) :: rest.2)
termination_by PPB3_MAX_RETRIES - retry
decreasing_by
  simp [PPB3_MAX_RETRIES] at *
  omega

lemma ppb3SubmitAux_eq (env : Nat → Option (Option (List (List String))))
    (method : String) (r : Nat) :
    ppb3SubmitAux env method r =
      if PPB3_MAX_RETRIES ≤ r then ([], [])
      else
        match modelTypeMap method with
        | none => ([], [])
        | some _ =>
          match env r with
          | some page => (ppb3Extract true page, [])
          | none =>
            let rest := ppb3SubmitAux env method (r + 1)
            (rest.1, 2 * (r + 1) :: rest.2) := by
  rw [ppb3SubmitAux]

lemma ppb3_agree (k : Nat) : ∀ (env env' : Nat → Option (Option (List (List String))))
    (method : String) (r : Nat), PPB3_MAX_RETRIES - r ≤ k →
    (∀ i, i < PPB3_MAX_RETRIES → env i = env' i) →
    ppb3SubmitAux env method r = ppb3SubmitAux env' method r := by
  induction k with
  | zero =>
    intro env env' method r hk _
    have hr : PPB3_MAX_RETRIES ≤ r := by omega
    rw [ppb3SubmitAux_eq env method r, ppb3SubmitAux_eq env' method r,
      if_pos hr, if_pos hr]
  | succ k ih =>
    intro env env' method r hk hagree
    by_cases hr : PPB3_MAX_RETRIES ≤ r
    · rw [ppb3SubmitAux_eq env method r, ppb3SubmitAux_eq env' method r,
        if_pos hr, if_pos hr]
    · rw [ppb3SubmitAux_eq env method r, ppb3SubmitAux_eq env' method r,
        if_neg hr, if_neg hr]
      cases modelTypeMap method with
      | none => rfl
      | some mt =>
        rw [hagree r (by omega)]
        cases env' r with
        | some page => rfl
        | none =>
          simp only
          rw [ih env env' method (r + 1) (by omega) hagree]

/-- C8 -- per `(SMILES, method)` request the PPB3 adapter makes at most
`PPB3_MAX_RETRIES = 3` attempts (its result depends only on the first three
oracle answers), never retries after a well-formed response — even an empty
one (no sleeps are recorded), returns the empty list once the budget is
exhausted instead of raising, and the recorded back-off sleeps are the
linear schedule `2 * (attempt + 1)`. -/
theorem ppb3_retry_policy :
    (∀ env method, ppb3SubmitAux env method PPB3_MAX_RETRIES = ([], [])) ∧
    (∀ env method r page, r < PPB3_MAX_RETRIES → env r = some page →
      ppb3SubmitAux env method r =
        ((match modelTypeMap method with
          | some _ => ppb3Extract true page
          | none => []), [])) ∧
    (∀ env env' method, (∀ i, i < PPB3_MAX_RETRIES → env i = env' i) →
      ppb3SubmitAux env method 0 = ppb3SubmitAux env' method 0) ∧
    (∀ env method, (∀ i, i < PPB3_MAX_RETRIES → env i = none) →
      (modelTypeMap method).isSome = true →
      ppb3SubmitAux env method 0 = ([], [2, 4, 6])) := by
  refine ⟨?_, ?_, ?_, ?_⟩
  · intro env method
    rw [ppb3SubmitAux_eq, if_pos (le_refl _)]
  · intro env method r page hr hpage
    rw [ppb3SubmitAux_eq, if_neg (by omega), hpage]
    cases modelTypeMap method with
    | none => rfl
    | some mt => rfl
  · intro env env' method hagree
    exact ppb3_agree PPB3_MAX_RETRIES env env' method 0 (by omega) hagree
  · intro env method hfail hsome
    rcases hmt : modelTypeMap method with _ | mt
    · rw [hmt] at hsome; simp at hsome
    · rw [ppb3SubmitAux_eq, if_neg (by simp [PPB3_MAX_RETRIES]), hmt,
        hfail 0 (by simp [PPB3_MAX_RETRIES])]
      simp only
      rw [ppb3SubmitAux_eq, if_neg (by simp [PPB3_MAX_RETRIES]), hmt,
        hfail 1 (by simp [PPB3_MAX_RETRIES])]
      simp only
      rw [ppb3SubmitAux_eq, if_neg (by simp [PPB3_MAX_RETRIES]), hmt,
        hfail 2 (by simp [PPB3_MAX_RETRIES])]
      simp only
      rw [ppb3SubmitAux_eq, if_pos (by simp [PPB3_MAX_RETRIES])]

/-- C8 witness. -/
theorem ppb3_retry_policy_witness :
    ppb3SubmitAux (fun _ => none) "Consensus" 0 = ([], [2, 4, 6]) :=
  ppb3_retry_policy.2.2.2 (fun _ => none) "Consensus"
    (fun _ _ => rfl) (by decide)


/-! ### SEA adapter (`sea_parse_table`) -/

/-- One `<tr>` of the SEA results `tbody`: its `class` attribute (`""` when
absent) and its `<td>` texts. -/
structure SeaTr where
  cls : String
  tds : List String
deriving DecidableEq, Repr

structure SeaOut where
  rank : Nat
  targetKey : String
  targetName : String
  desc : String
  pValue : String
  maxTc : String
deriving DecidableEq, Repr

/-- Python list indexing `l[i]` (negative indices wrap; out of range raises
`IndexError`). -/
def pyIndex (l : List String) (i : Int) : Except String String :=
  let j := if i < 0 then (l.length : Int) + i else i
  if j < 0 then .error "IndexError"
  else
    match l.get? j.toNat with
    | some v => .ok v
    | none => .error "IndexError"

/-- `thead_header_texts.index(header_text) - 1` (SEA has a leading
blank/rank column); a missing header raises `ValueError`. -/
def idxOfHeader (hs : List String) (t : String) : Except String Int :=
  match hs.indexOf? t with
  | some n => .ok ((n : Int) - 1)
  | none => .error "ValueError"

/-- The row loop of `sea_parse_table`: skip `spanning info` rows and rows
with too few cells, keep only human targets, and count `rank` over the
kept rows only. -/
def seaRows (iKey iName iDesc iPv iTc : Int) :
    List SeaTr → Nat → Except String (List SeaOut)
  | [], _ => .ok []
  | tr :: rest, rank =>
    if tr.cls ≠ "" ∧ strContains tr.cls "spanning info" = true then
      seaRows iKey iName iDesc iPv iTc rest rank
    else if tr.tds.length < 5 then
      seaRows iKey iName iDesc iPv iTc rest rank
    else
      match pyIndex tr.tds iKey with
      | .error e => .error e
      | .ok rawKey =>
        if isHumanTargetUniprot (strTrim rawKey) = false then
          seaRows iKey iName iDesc iPv iTc rest rank
        else
          match pyIndex tr.tds iName, pyIndex tr.tds iDesc,
              pyIndex tr.tds iPv, pyIndex tr.tds iTc with
          | .ok tn, .ok ds, .ok pv, .ok tc =>
            match seaRows iKey iName iDesc iPv iTc rest (rank + 1) with
            | .error e => .error e
            | .ok rest1 =>
              .ok (⟨rank + 1, strTrim rawKey, strTrim tn, strTrim ds,
                strTrim pv, strTrim tc⟩ :: rest1)
          | .error e, _, _, _ => .error e
          | _, .error e, _, _ => .error e
          | _, _, .error e, _ => .error e
          | _, _, _, .error e => .error e

/-- `sea_parse_table`: resolve the five column indices from the `thead`
texts, then walk the `tbody` rows. -/
def seaParseTable (theadTexts : List String) (body : List SeaTr) :
    Except String (List SeaOut) :=
  let headers := theadTexts.map (fun h => strLower (strTrim h))
  match idxOfHeader headers "target key" with
  | .error e => .error e
  | .ok iKey =>
    match idxOfHeader headers "target name" with
    | .error e => .error e
    | .ok iName =>
      match idxOfHeader headers "description" with
      | .error e => .error e
      | .ok iDesc =>
        match idxOfHeader headers "p-value" with
        | .error e => .error e
        | .ok iPv =>
          match idxOfHeader headers "maxtc" with
          | .error e => .error e
          | .ok iTc => seaRows iKey iName iDesc iPv iTc body 0

/-- The claim's characterization of the PPB3 species filter: the organism,
after stripping and lowercasing, equals or contains `"homo sapiens"`
(modelled from the claim's words, for comparison with `isHomoSapiens`). -/
def claimHomoSapiens (s : String) : Bool :=
  let t := strLower (strTrim s)
  t == "homo sapiens" || strContains t "homo sapiens"

lemma seaRows_spec (iKey iName iDesc iPv iTc : Int) :
    ∀ (body : List SeaTr) (rank : Nat) (out : List SeaOut),
      seaRows iKey iName iDesc iPv iTc body rank = .ok out →
      (∀ r ∈ out, isHumanTargetUniprot r.targetKey = true) ∧
      out.map (·.rank) = List.range' (rank + 1) out.length := by
  intro body
  induction body with
  | nil =>
    intro rank out hok
    cases hok
    exact ⟨by intro r hr; simp at hr, by simp⟩
  | cons tr rest ih =>
    intro rank out hok
    rw [seaRows] at hok
    by_cases h1 : tr.cls ≠ "" ∧ strContains tr.cls "spanning info" = true
    · rw [if_pos h1] at hok
      exact ih rank out hok
    · rw [if_neg h1] at hok
      by_cases h2 : tr.tds.length < 5
      · rw [if_pos h2] at hok
        exact ih rank out hok
      · rw [if_neg h2] at hok
        rcases hkey : pyIndex tr.tds iKey with e | rawKey <;> rw [hkey] at hok
        · exact absurd hok (by simp)
        · dsimp only at hok
          by_cases hh : isHumanTargetUniprot (strTrim rawKey) = false
          · rw [if_pos hh] at hok
            exact ih rank out hok
          · rw [if_neg hh] at hok
            rcases htn : pyIndex tr.tds iName with e | tn <;> rw [htn] at hok
            · exact absurd hok (by simp)
            rcases hds : pyIndex tr.tds iDesc with e | ds <;> rw [hds] at hok
            · exact absurd hok (by simp)
            rcases hpv : pyIndex tr.tds iPv with e | pv <;> rw [hpv] at hok
            · exact absurd hok (by simp)
            rcases htc : pyIndex tr.tds iTc with e | tc <;> rw [htc] at hok
            · exact absurd hok (by simp)
            simp only at hok
            rcases hrest : seaRows iKey iName iDesc iPv iTc rest (rank + 1)
              with e | rest1 <;> rw [hrest] at hok
            · exact absurd hok (by simp)
            · cases hok
              obtain ⟨ihh, ihr⟩ := ih (rank + 1) rest1 hrest
              refine ⟨?_, ?_⟩
              · intro r hr
                rcases List.mem_cons.mp hr with hr | hr
                · subst hr
                  simpa using Bool.of_not_eq_false hh
                · exact ihh r hr
              · simp only [List.map_cons, List.length_cons, ihr,
                  List.range'_succ]

/-- C9 counterexample -- a PPB3 row whose organism cell is `"H. sapiens"`
is kept by the species filter (`is_homo_sapiens` accepts the abbreviation),
yet its stripped-and-lowercased organism neither equals nor contains
`"homo sapiens"`, contradicting the claim's characterization of the
retained records. -/
theorem species_filter_counterexample :
    ppb3Extract true (some [["x", "y", "T1", "0.9", "z", "H. sapiens"]]) =
      [⟨"T1", mkRat 9 10, "H. sapiens"⟩] ∧
    isHomoSapiens "H. sapiens" = true ∧
    claimHomoSapiens "H. sapiens" = false := by
  refine ⟨by decide, by decide, by decide⟩

/-- C9 amended -- every record retained by a species filter satisfies its
per-source predicate, for adversarial casing and whitespace: every SEA row
kept has a `Target_Key` whose uppercased form ends with `_HUMAN`, and the
SEA post-filter rank counts exactly the kept rows (`1..k`); every PPB3
target kept has an organism that, stripped and lowercased, equals
`"homo sapiens"`, equals `"h. sapiens"`, or contains `"homo sapiens"`. -/
theorem species_filter_retained_records
    (theadTexts : List String) (body : List SeaTr)
    (hasBs4 : Bool) (page : Option (List (List String))) :
    (∀ out, seaParseTable theadTexts body = .ok out →
      (∀ r ∈ out, strEndsWith (strUpper r.targetKey) "_HUMAN" = true) ∧
      out.map (·.rank) = List.range' 1 out.length) ∧
    (∀ t ∈ ppb3Extract hasBs4 page,
      isHomoSapiens t.organism = true ∧
      ((strLower (strTrim t.organism) == "homo sapiens")
        || (strLower (strTrim t.organism) == "h. sapiens")
        || strContains (strLower (strTrim t.organism)) "homo sapiens")
          = true) := by
  constructor
  · intro out hok
    rw [seaParseTable] at hok
    rcases h1 : idxOfHeader (theadTexts.map (fun h => strLower (strTrim h)))
        "target key" with e | iKey <;> rw [h1] at hok
    · exact absurd hok (by simp)
    rcases h2 : idxOfHeader (theadTexts.map (fun h => strLower (strTrim h)))
        "target name" with e | iName <;> rw [h2] at hok
    · exact absurd hok (by simp)
    rcases h3 : idxOfHeader (theadTexts.map (fun h => strLower (strTrim h)))
        "description" with e | iDesc <;> rw [h3] at hok
    · exact absurd hok (by simp)
    rcases h4 : idxOfHeader (theadTexts.map (fun h => strLower (strTrim h)))
        "p-value" with e | iPv <;> rw [h4] at hok
    · exact absurd hok (by simp)
    rcases h5 : idxOfHeader (theadTexts.map (fun h => strLower (strTrim h)))
        "maxtc" with e | iTc <;> rw [h5] at hok
    · exact absurd hok (by simp)
    obtain ⟨hhum, hrank⟩ := seaRows_spec iKey iName iDesc iPv iTc body 0 out hok
    refine ⟨?_, hrank⟩
    intro r hr
    have h := hhum r hr
    rw [isHumanTargetUniprot] at h
    by_cases he : r.targetKey = ""
    · rw [if_pos he] at h
      exact absurd h (by simp)
    · rwa [if_neg he] at h
  · intro t hmem
    rw [ppb3Extract.eq_def] at hmem
    cases hasBs4 with
    | false => simp at hmem
    | true =>
      simp only [Bool.not_true, Bool.false_eq_true, if_false] at hmem
      cases page with
      | none => simp at hmem
      | some rows =>
        simp only [List.mem_filterMap] at hmem
        obtain ⟨cells, _, hrow⟩ := hmem
        rw [ppb3Row?] at hrow
        by_cases hlen : cells.length < 6
        · rw [if_pos hlen] at hrow
          exact absurd hrow (by simp)
        · rw [if_neg hlen] at hrow
          simp only at hrow
          by_cases hhum : isHomoSapiens (strTrim (cells.getD 5 "")) = true
          · rw [hhum] at hrow
            simp only [Bool.not_true, Bool.false_eq_true, if_false] at hrow
            rcases hp : pyFloat? (strTrim (cells.getD 3 "")) with _ | p <;>
              rw [hp] at hrow
            · exact absurd hrow (by simp)
            · dsimp only at hrow
              by_cases hname : strTrim (cells.getD 2 "") ≠ ""
              · rw [if_pos hname] at hrow
                cases hrow
                constructor
                · simp only
                  rw [isHomoSapiens] at hhum ⊢
                  exact hhum
                · simp only
                  rw [isHomoSapiens] at hhum
                  by_cases he : strTrim (cells.getD 5 "") = ""
                  · rw [if_pos he] at hhum
                    exact absurd hhum (by simp)
                  · rw [if_neg he] at hhum
                    simp only [Bool.or_eq_true] at hhum ⊢
                    tauto
              · rw [if_neg hname] at hrow
                exact absurd hrow (by simp)
          · rw [Bool.not_eq_true] at hhum
            rw [hhum] at hrow
            simp only [Bool.not_false, if_true] at hrow
            exact absurd hrow (by simp)

/-- C9 witness (for the amended theorem). -/
theorem species_filter_retained_records_witness :
    (isHomoSapiens "Homo Sapiens" = true ∧
      ((strLower (strTrim "Homo Sapiens") == "homo sapiens")
        || (strLower (strTrim "Homo Sapiens") == "h. sapiens")
        || strContains (strLower (strTrim "Homo Sapiens")) "homo sapiens")
          = true) :=
  (species_filter_retained_records [] [] true
      (some [["x", "y", "T2", "0.5", "z", "Homo Sapiens "]])).2
    ⟨"T2", mkRat 1 2, "Homo Sapiens"⟩ (by decide)


/-! ### SwissTargetPrediction adapter (`swisstarget_parse_table`) -/

/-- `next((h for h in headers if sub in h), None)`. -/
def firstContaining (headers : List String) (sub : String) : Option String :=
  headers.find? (fun h => strContains h sub)

/-- `tds[idx].text.strip() if idx is not None and idx < len(tds) else ""`. -/
def getTextAt (oi : Option Nat) (tds : List String) : String :=
  match oi with
  | some i => if i < tds.length then strTrim (tds.getD i "") else ""
  | none => ""

/-- One greedy match attempt of `[0-9]*\.?[0-9]+` at the head of `cs`,
returned as (integer digits, fractional digits) — fractional part empty
when the match carries no `.digits` tail. -/
def numMatchAt (cs : List Char) : Option (List Char × List Char) :=
  let d1 := cs.takeWhile Char.isDigit
  let rest := cs.drop d1.length
  match rest with
  | '.' :: r2 =>
    let d2 := r2.takeWhile Char.isDigit
    if d2.isEmpty then (if d1.isEmpty then none else some (d1, []))
    else some (d1, d2)
  | _ => if d1.isEmpty then none else some (d1, [])

/-- `prob_regex.search(prob_text)`: leftmost match of `[0-9]*\.?[0-9]+`. -/
def numSearch : List Char → Option (List Char × List Char)
  | [] => none
  | c :: rest =>
    match numMatchAt (c :: rest) with
    | some m => some m
    | none => numSearch rest

/-- `prob_val = float(m.group(0)) if m else 0.0`: the value of the matched
decimal literal, and `0` — not an absent value — when nothing matches. -/
def probValOfCell (s : String) : ℚ :=
  match numSearch s.data with
  | some m => ratOfSci 1 (digitsVal (m.1 ++ m.2)) (-(m.2.length : Int))
  | none => 0

structure SwissOut where
  rank : Nat
  targetName : String
  geneSymbol : String
  uniprotId : String
  chemblId : String
  targetClass : String
  /-- Always populated — `0.0` when the cell has no leading numeric
  pattern. -/
  probability : ℚ
deriving DecidableEq, Repr

/-- The row loop of `swisstarget_parse_table`
(`for i, tr in enumerate(trs[1:], start=1)`). -/
def swissRowsAux (iT iG iU iC iCl iP : Option Nat) (nCols : Nat) :
    List (List String) → Nat → List SwissOut
  | [], _ => []
  | tds :: rest, i =>
    if tds.length < nCols then swissRowsAux iT iG iU iC iCl iP nCols rest (i + 1)
    else
      let target := getTextAt iT tds
      let uni := getTextAt iU tds
      if target = "" ∨ uni = "" then
        swissRowsAux iT iG iU iC iCl iP nCols rest (i + 1)
      else
        ⟨i, target, getTextAt iG tds, uni, getTextAt iC tds, getTextAt iCl tds,
            probValOfCell (getTextAt iP tds)⟩ ::
          swissRowsAux iT iG iU iC iCl iP nCols rest (i + 1)

/-- `swisstarget_parse_table`: `headerCells` are the `<th>` texts, `trs`
all `<tr>` of the results table (the first being the header row, skipped
by `trs[1:]`). -/
def swissParseTable (headerCells : List String)
    (trs : List (List String)) : List SwissOut :=
  let headers := headerCells.map (fun h => strLower (strTrim h))
  let iT := (firstContaining headers "target").bind headers.indexOf?
  let iG := (firstContaining headers "common").bind headers.indexOf?
  let iU := (firstContaining headers "uniprot").bind headers.indexOf?
  let iC := (firstContaining headers "chembl").bind headers.indexOf?
  let iCl := (firstContaining headers "class").bind headers.indexOf?
  let iP := (firstContaining headers "probability").bind headers.indexOf?
  let nCols := [iT, iG, iU, iC, iCl, iP].countP Option.isSome
  swissRowsAux iT iG iU iC iCl iP nCols (trs.drop 1) 1

/-- C4 counterexample -- a Swiss results row whose probability cell
(`"N/A*"`) has no numeric pattern is parsed into a record with probability
`0` (a present zero, not an absent value), and that record then passes a
downstream threshold comparison as if its score were 0: the np-variant
script invoked with `--swiss 0` (no `--min-prob`) retains it. -/
theorem unparseable_score_counterexample :
    numSearch "N/A*".data = none ∧
    swissParseTable
        ["Target", "Common name", "Uniprot ID", "ChEMBL-ID",
          "Target Class", "Probability*"]
        [[], ["T1", "G1", "P12345", "CH1", "Kinase", "N/A*"]] =
      [⟨1, "T1", "G1", "P12345", "CH1", "Kinase", 0⟩] ∧
    scriptKeep (npEffective ⟨0, mkRat 1 2, mkRat 3 10, none⟩)
      ⟨"SwissTargetPrediction", some 0, none, none⟩ = true := by
  refine ⟨by decide, by decide, by decide⟩

/-- C4 amended -- in the filter script, a coerced-to-NaN (absent) numeric
field never passes a threshold comparison: a Swiss or PPB3 row with absent
probability is never kept.  The Swiss adapter, however, substitutes the
present value `0.0` — not an absent value — for a probability cell with no
numeric pattern. -/
theorem unparseable_score_amended (k : Cutoffs) (r : ScriptRow) (s : String) :
    (r.probability = none → r.database = "SwissTargetPrediction" ∨
      r.database = "PPB3" → scriptKeep k r = false) ∧
    (numSearch s.data = none → probValOfCell s = 0) := by
  constructor
  · intro hp hdb
    rcases hdb with h | h <;> simp [scriptKeep, h, hp, nanGE]
  · intro h
    rw [probValOfCell, h]

/-- C4 witness (for the amended theorem). -/
theorem unparseable_score_amended_witness :
    scriptKeep ⟨mkRat 1 10, mkRat 4 5, mkRat 2 5, mkRat 1 100000⟩
        ⟨"SwissTargetPrediction", none, none, none⟩ = false ∧
    probValOfCell "N/A*" = 0 :=
  ⟨(unparseable_score_amended ⟨mkRat 1 10, mkRat 4 5, mkRat 2 5, mkRat 1 100000⟩
      ⟨"SwissTargetPrediction", none, none, none⟩ "N/A*").1 rfl (Or.inl rfl),
    (unparseable_score_amended ⟨mkRat 1 10, mkRat 4 5, mkRat 2 5, mkRat 1 100000⟩
      ⟨"SwissTargetPrediction", none, none, none⟩ "N/A*").2 (by decide)⟩


end NetPharm
